import Mathlib

/-!
Verification of the `elton-static-serve` middleware (`static_serve.go`).

The Go handler is shallowly embedded as pure Lean functions:

* byte strings are `List Nat` (each entry a byte value);
* Go `string` is Lean `String` (operations are modelled on `String.data`,
  the underlying `List Char`; every separator and sentinel involved, `/`
  and `.`, is ASCII, so char-level and byte-level processing agree);
* the `StaticFile` backend interface becomes a structure of pure
  functions, and the handler result records which backend operations were
  invoked (`calls`), which headers were set, the body assignment, the
  returned error and whether the continuation (`c.Next()`) was invoked;
* Go `int`/`int64` are `Int` (none of the verified paths overflow 64 bits).
-/

namespace StaticServe

/-! ### Go string primitives -/
/-- Go `strings.Split(s, "/")` on the character list: splits at every `/`,
keeping empty fields (`strings.SplitN(file, "/", -1)` in the source). -/
def splitOnSlash (l : List Char) : List (List Char) :=
  l.foldr
    (fun x r =>
      if x = '/' then [] :: r
      else
        match r with
        | y :: ys => (x :: y) :: ys
        | [] => [[x]])
    [[]]

/-- Join character-list segments with a single `/` between them. -/
def joinSlash : List (List Char) → List Char
  | [] => []
  | [x] => x
  | x :: y :: xs => x ++ '/' :: joinSlash (y :: xs)

/-- Go `strings.HasPrefix(s, pre)`. -/
def goStartsWith (s pre : String) : Bool :=
  pre.data.isPrefixOf s.data

/-! ### Go `path/filepath.Clean` and `Join` (Unix rules)

`filepath.Clean` (equivalently `path.Clean` for `/`-separated paths) is
specified by the segment algorithm: drop empty and `.` elements, let an
inner `..` cancel the preceding non-`..` element, drop `..` elements at
the start of a rooted path and keep them at the start of a relative one;
the result keeps the rootedness of the input and is `.` when everything
cancels in a relative path. -/
/-- Stack pass of `Clean`: `acc` holds the output segments in reverse. -/
def cleanStack (rooted : Bool) : List (List Char) → List (List Char) → List (List Char)
  | acc, [] => acc.reverse
  | acc, seg :: rest =>
    if seg = [] ∨ seg = ['.'] then cleanStack rooted acc rest
    else if seg = ['.', '.'] then
      match acc with
      | [] => if rooted then cleanStack rooted [] rest else cleanStack rooted [['.', '.']] rest
      | top :: tl =>
        if top = ['.', '.'] then cleanStack rooted (['.', '.'] :: top :: tl) rest
        else cleanStack rooted tl rest
    else cleanStack rooted (seg :: acc) rest

/-- Go `filepath.Clean` for Unix paths. -/
def goClean (p : String) : String :=
  let cs := p.data
  let rooted : Bool := match cs with | '/' :: _ => true | _ => false
  let out := cleanStack rooted [] (splitOnSlash cs)
  if rooted then ⟨'/' :: joinSlash out⟩
  else if out = [] then "." else ⟨joinSlash out⟩

/-- Go `filepath.Join(a, b)` for Unix paths: skip empty elements, join the
rest with `/`, and `Clean` the result (`""` when both are empty). -/
def goJoin (a b : String) : String :=
  if a ≠ "" then goClean (a ++ "/" ++ b)
  else if b ≠ "" then goClean b
  else ""

/-! ### Hex and decimal formatting (`fmt`'s `%x`, `strconv.Itoa`) -/
/-- Lower-case hex digit for a value `< 16`. -/
def hexDigit (n : Nat) : Char :=
  if n < 10 then Char.ofNat (48 + n) else Char.ofNat (87 + n)

/-- Big-endian hex digits of `n` (empty for `0`); `fuel` bounds recursion
and is structurally decreasing, `fuel = n` always suffices. -/
def natToHexAux : Nat → Nat → List Char
  | 0, _ => []
  | fuel + 1, n => if n = 0 then [] else natToHexAux fuel (n / 16) ++ [hexDigit (n % 16)]

/-- Go `fmt.Sprintf("%x", n)` for a natural number. -/
def natToHex (n : Nat) : String :=
  if n = 0 then "0" else ⟨natToHexAux n n⟩

/-- Go `fmt.Sprintf("%x", i)` for a signed integer (`-` then hex digits
when negative). -/
def goHexInt (i : Int) : String :=
  if i < 0 then "-" ++ natToHex i.natAbs else natToHex i.toNat

/-- Go `strconv.Itoa`. -/
def goItoa (i : Int) : String := toString i

/-! ### `crypto/sha1` and `encoding/base64.URLEncoding`

Byte-level model of SHA-1 (FIPS 180) as used by `generateETag`: pad the
message, process 64-byte chunks with the 80-round compression, output the
20-byte digest big-endian.  All machine words are `Nat` reduced mod
`2^32` wherever Go's `uint32` would wrap. -/
/-- `2^32`, the modulus of Go's `uint32` arithmetic. -/
def M32 : Nat := 4294967296

/-- 32-bit left rotation by `s` (for `0 < s < 32` and `x < 2^32`). -/
def rotl32 (s x : Nat) : Nat :=
  ((x <<< s) % M32) ||| (x >>> (32 - s))

/-- SHA-1 padding: append `0x80`, zeros to 56 mod 64, and the bit length
as 8 big-endian bytes. -/
def sha1Pad (msg : List Nat) : List Nat :=
  let len := msg.length
  let bitLen := len * 8
  let padZeros := (120 - (len + 1) % 64) % 64
  msg ++ 0x80 :: List.replicate padZeros 0 ++
    [(bitLen >>> 56) % 256, (bitLen >>> 48) % 256, (bitLen >>> 40) % 256,
     (bitLen >>> 32) % 256, (bitLen >>> 24) % 256, (bitLen >>> 16) % 256,
     (bitLen >>> 8) % 256, bitLen % 256]

/-- Split into 64-byte chunks; `fuel = l.length` always suffices (each
step consumes a nonempty list). -/
def chunks64 : Nat → List Nat → List (List Nat)
  | _, [] => []
  | 0, _ => []
  | fuel + 1, l => l.take 64 :: chunks64 fuel (l.drop 64)

/-- Big-endian 32-bit words from bytes. -/
def bytesToWords : List Nat → List Nat
  | b0 :: b1 :: b2 :: b3 :: rest =>
    (b0 * 16777216 + b1 * 65536 + b2 * 256 + b3) :: bytesToWords rest
  | _ => []

/-- Extend the 16 chunk words to the 80-entry message schedule:
`w[j] = rotl1 (w[j-3] xor w[j-8] xor w[j-14] xor w[j-16])`. -/
def sha1Extend (w0 : Array Nat) : Array Nat :=
  (List.range 64).foldl
    (fun w i =>
      w.push (rotl32 1 ((w.get! (i + 13)) ^^^ (w.get! (i + 8)) ^^^ (w.get! (i + 2)) ^^^ (w.get! i))))
    w0

/-- One SHA-1 compression of a chunk's 80-word schedule into the running
state `(h0, h1, h2, h3, h4)`. -/
def sha1Compress (h : Nat × Nat × Nat × Nat × Nat) (w : Array Nat) : Nat × Nat × Nat × Nat × Nat :=
  let r := (List.range 80).foldl
    (fun (st : Nat × Nat × Nat × Nat × Nat) i =>
      let (a, b, c, d, e) := st
      let f :=
        if i < 20 then (b &&& c) ||| ((b ^^^ 0xFFFFFFFF) &&& d)
        else if i < 40 then b ^^^ c ^^^ d
        else if i < 60 then (b &&& c) ||| (b &&& d) ||| (c &&& d)
        else b ^^^ c ^^^ d
      let k :=
        if i < 20 then 0x5A827999
        else if i < 40 then 0x6ED9EBA1
        else if i < 60 then 0x8F1BBCDC
        else 0xCA62C1D6
      let temp := (rotl32 5 a + f + e + k + w.get! i) % M32
      (temp, a, rotl32 30 b, c, d))
    h
  ((h.1 + r.1) % M32, (h.2.1 + r.2.1) % M32, (h.2.2.1 + r.2.2.1) % M32,
   (h.2.2.2.1 + r.2.2.2.1) % M32, (h.2.2.2.2 + r.2.2.2.2) % M32)

/-- SHA-1 digest (20 bytes) of a byte string. -/
def sha1 (msg : List Nat) : List Nat :=
  let padded := sha1Pad msg
  let h := (chunks64 padded.length padded).foldl
    (fun h ch => sha1Compress h (sha1Extend (bytesToWords ch).toArray))
    (0x67452301, 0xEFCDAB89, 0x98BADCFE, 0x10325476, 0xC3D2E1F0)
  [h.1, h.2.1, h.2.2.1, h.2.2.2.1, h.2.2.2.2].flatMap
    (fun x => [(x >>> 24) % 256, (x >>> 16) % 256, (x >>> 8) % 256, x % 256])

/-- The URL-safe base64 alphabet (`encoding/base64.URLEncoding`). -/
def base64Chars : List Char :=
  "ABCDEFGHIJKLMNOPQRSTUVWXYZabcdefghijklmnopqrstuvwxyz0123456789-_".data

/-- Character for a 6-bit value. -/
def b64c (n : Nat) : Char := base64Chars.getD n 'A'

/-- `base64.URLEncoding.EncodeToString` (padded URL-safe base64). -/
def base64URLEncode : List Nat → List Char
  | [] => []
  | [b0] => [b64c (b0 / 4), b64c (b0 % 4 * 16), '=', '=']
  | [b0, b1] => [b64c (b0 / 4), b64c (b0 % 4 * 16 + b1 / 16), b64c (b1 % 16 * 4), '=']
  | b0 :: b1 :: b2 :: rest =>
    b64c (b0 / 4) :: b64c (b0 % 4 * 16 + b1 / 16) :: b64c (b1 % 16 * 4 + b2 / 64) ::
      b64c (b2 % 64) :: base64URLEncode rest

/-- `generateETag` (static_serve.go): `"0-2jmj7l5rSw0yVb_vlWAYkK_YBwk="`
in quotes for empty content, else `"<hex size>-<base64url sha1>"`. -/
def generateETag (buf : List Nat) : String :=
  let size := buf.length
  if size = 0 then "\"0-2jmj7l5rSw0yVb_vlWAYkK_YBwk=\""
  else "\"" ++ natToHex size ++ "-" ++ String.mk (base64URLEncode (sha1 buf)) ++ "\""

/-! ### Go `time` formatting of a UTC unix timestamp

Models `time.Unix(sec, 0).UTC().Format("Mon, 02 Jan 2006 15:04:05 GMT")`
via the standard civil-from-days conversion for the proleptic Gregorian
calendar. -/
/-- Civil date `(year, month, day)` from days since 1970-01-01. -/
def civilFromDays (z0 : Int) : Int × Nat × Nat :=
  let z := z0 + 719468
  let era := Int.fdiv z 146097
  let doe := (z - era * 146097).toNat
  let yoe := (doe - doe / 1460 + doe / 36524 - doe / 146096) / 365
  let y := (yoe : Int) + era * 400
  let doy := doe - (365 * yoe + yoe / 4 - yoe / 100)
  let mp := (5 * doy + 2) / 153
  let d := doy - (153 * mp + 2) / 5 + 1
  let m := if mp < 10 then mp + 3 else mp - 9
  (if m ≤ 2 then y + 1 else y, m, d)

/-- Three-letter weekday name, `0 = Sun`. -/
def weekdayName (w : Nat) : String :=
  ["Sun", "Mon", "Tue", "Wed", "Thu", "Fri", "Sat"].getD w ""

/-- Three-letter month name, `1 = Jan`. -/
def monthName (m : Nat) : String :=
  ["Jan", "Feb", "Mar", "Apr", "May", "Jun", "Jul", "Aug", "Sep", "Oct", "Nov", "Dec"].getD (m - 1) ""

/-- Zero-padded two-digit decimal. -/
def pad2 (n : Nat) : String :=
  if n < 10 then "0" ++ toString n else toString n

/-- Go `t.UTC().Format("Mon, 02 Jan 2006 15:04:05 GMT")` for the unix
timestamp `t` (seconds). -/
def formatHTTPDate (t : Int) : String :=
  let days := Int.fdiv t 86400
  let secs := (Int.fmod t 86400).toNat
  let c := civilFromDays days
  let wd := (Int.fmod (days + 4) 7).toNat
  weekdayName wd ++ ", " ++ pad2 c.2.2 ++ " " ++ monthName c.2.1 ++ " " ++ toString c.1 ++ " " ++
    pad2 (secs / 3600) ++ ":" ++ pad2 (secs % 3600 / 60) ++ ":" ++ pad2 (secs % 60) ++ " GMT"

/-! ### Data model: errors, backend capability, config, request, result -/
/-- Model of `*hes.Error` (the host's structured error type): an HTTP
status code, a message and a category. -/
structure HErr where
  StatusCode : Nat
  Message : String
  Category : String
deriving DecidableEq, Repr

/-- `ErrCategory` constant of the package. -/
def ErrCategory : String := "elton-static-serve"

/-- `getStaticServeError`: build a category-tagged `hes.Error`. -/
def getStaticServeError (message : String) (statusCode : Nat) : HErr :=
  { StatusCode := statusCode, Message := message, Category := ErrCategory }

/-- `ErrNotAllowQueryString` (HTTP 400). -/
def ErrNotAllowQueryString : HErr :=
  getStaticServeError "static serve not allow query string" 400

/-- `ErrNotFound` (HTTP 404). -/
def ErrNotFound : HErr := getStaticServeError "static file not found" 404

/-- `ErrOutOfPath` (HTTP 400). -/
def ErrOutOfPath : HErr := getStaticServeError "out of path" 400

/-- `ErrNotAllowAccessDot` (HTTP 400). -/
def ErrNotAllowAccessDot : HErr :=
  getStaticServeError "static server not allow with dot" 400

/-- A Go error value returned by `StaticFile.Get`: either already a
structured `*hes.Error`, or a plain error carrying only a message. -/
inductive GoErr where
  | hes (e : HErr)
  | plain (message : String)
deriving DecidableEq, Repr

/-- The slice of `os.FileInfo` the handler reads: `Size()` and
`ModTime().Unix()` (seconds). -/
structure FileInfo where
  size : Int
  modTimeUnix : Int
deriving DecidableEq, Repr

/-- The `StaticFile` backend interface, as pure functions.  `Get` returns
`.ok none` for Go's `(nil, nil)` (nil byte slice, no error) and
`.ok (some bytes)` for a non-nil slice; `Stat` returns `none` for a nil
`os.FileInfo`; `NewReader` yields an abstract reader of type `R` or an
error message. -/
structure StaticFile (R : Type) where
  Exists : String → Bool
  Get : String → Except GoErr (Option (List Nat))
  Stat : String → Option FileInfo
  NewReader : String → Except String R

/-- A request as the handler sees it: the route-capture parameter values
(`c.RawParams`), the URL path and the raw query string. -/
structure Request where
  rawParams : List String
  urlPath : String
  rawQuery : String

/-- `Config` (static_serve.go), with the skipper as an optional predicate
on the request (`nil` → elton's default skipper, which does not skip). -/
structure Config where
  Path : String := ""
  MaxAge : Int := 0
  SMaxAge : Int := 0
  Header : List (String × String) := []
  DenyQueryString : Bool := false
  DenyDot : Bool := false
  EnableStrongETag : Bool := false
  DisableETag : Bool := false
  DisableLastModified : Bool := false
  NotFoundNext : Bool := false
  Skipper : Option (Request → Bool) := none

/-- One backend invocation, recorded in order. -/
inductive Call where
  | existsCall (file : String)
  | getCall (file : String)
  | statCall (file : String)
  | newReaderCall (file : String)
deriving DecidableEq, Repr

/-- Observable outcome of one handler run: the returned error (if any),
the response headers in the order set, the body (buffered bytes or an
abstract stream), whether `c.Next()` was invoked, and the trace of
backend calls. -/
structure HandlerResult (R : Type) where
  err : Option HErr := none
  headers : List (String × String) := []
  bodyBuffer : Option (List Nat) := none
  body : Option R := none
  nextCalled : Bool := false
  calls : List Call := []
deriving DecidableEq

/-! ### The handler -/
/-- `c.SetHeader k v`: `http.Header.Set` semantics — replace the value of
an existing `k` entry, else append `(k, v)`. -/
def setHeader (hs : List (String × String)) (k v : String) : List (String × String) :=
  if hs.any (fun p => p.1 == k) then hs.map (fun p => if p.1 == k then (k, v) else p)
  else hs ++ [(k, v)]

/-- The cache-control value precomputed at construction (static_serve.go
lines 140–152): `["public"]`, plus `max-age=`/`s-maxage=` when positive,
joined with `", "` only when the array has more than one element, else
the empty string. -/
def cacheControlOf (config : Config) : String :=
  let cacheArr := ["public"]
  let cacheArr := if config.MaxAge > 0 then cacheArr ++ ["max-age=" ++ goItoa config.MaxAge] else cacheArr
  let cacheArr := if config.SMaxAge > 0 then cacheArr ++ ["s-maxage=" ++ goItoa config.SMaxAge] else cacheArr
  if cacheArr.length > 1 then String.intercalate ", " cacheArr else ""

/-- Path extraction (lines 161–172): the first route parameter's value,
falling back to the request URL path when absent or empty. -/
def extractFile (req : Request) : String :=
  let file := match req.rawParams with | [] => "" | v :: _ => v
  if file = "" then req.urlPath else file

/-- Dot check (lines 175–183): some `/`-separated segment is nonempty and
begins with `.`. -/
def hasDotSegment (file : String) : Bool :=
  (splitOnSlash file.data).any (fun seg => match seg with | c :: _ => c == '.' | [] => false)

/-- The weak ETag string `W/"<hex size>-<hex unix mod time>"` (line 230). -/
def weakETag (info : FileInfo) : String :=
  "W/\"" ++ goHexInt info.size ++ "-" ++ goHexInt info.modTimeUnix ++ "\""

/-- ETag header step (lines 223–234) on a `(headers, backend-call trace)`
state: in strong mode set the ETag computed from the retained buffer (nil
buffer hashes as empty); in weak mode call `Stat` and set the weak ETag
only when it returned a `FileInfo`. -/
def etagStep {R : Type} (staticFile : StaticFile R) (config : Config) (file : String)
    (fileBuf : Option (List Nat)) (st : List (String × String) × List Call) :
    List (String × String) × List Call :=
  if !config.DisableETag then
    if config.EnableStrongETag then
      (setHeader st.1 "ETag" (generateETag (fileBuf.getD [])), st.2)
    else
      match staticFile.Stat file with
      | some info => (setHeader st.1 "ETag" (weakETag info), st.2 ++ [Call.statCall file])
      | none => (st.1, st.2 ++ [Call.statCall file])
  else st

/-- Last-Modified header step (lines 236–242): call `Stat` and set the
header only when it returned a `FileInfo`. -/
def lastModifiedStep {R : Type} (staticFile : StaticFile R) (config : Config) (file : String)
    (st : List (String × String) × List Call) : List (String × String) × List Call :=
  if !config.DisableLastModified then
    match staticFile.Stat file with
    | some info =>
      (setHeader st.1 "Last-Modified" (formatHTTPDate info.modTimeUnix), st.2 ++ [Call.statCall file])
    | none => (st.1, st.2 ++ [Call.statCall file])
  else st

/-- Custom header step (lines 244–246): set every configured header. -/
def customHeaderStep (config : Config) (hs : List (String × String)) : List (String × String) :=
  config.Header.foldl (fun hs kv => setHeader hs kv.1 kv.2) hs

/-- Cache-control header step (lines 247–249): set the precomputed value
when it is nonempty. -/
def cacheControlStep (cacheControl : String) (hs : List (String × String)) :
    List (String × String) :=
  if cacheControl ≠ "" then setHeader hs "Cache-Control" cacheControl else hs

/-- Body assignment and continuation (lines 250–260): a non-nil retained
buffer becomes `BodyBuffer`; otherwise `NewReader` is opened, a failure
becoming a 400 error with the underlying message, success assigning the
stream as `Body`; on success `c.Next()` runs. -/
def bodyStep {R : Type} (staticFile : StaticFile R) (file : String)
    (fileBuf : Option (List Nat)) (hs : List (String × String)) (cs : List Call) :
    HandlerResult R :=
  match fileBuf with
  | some buf => { headers := hs, bodyBuffer := some buf, nextCalled := true, calls := cs }
  | none =>
    match staticFile.NewReader file with
    | .error msg =>
      { err := some (getStaticServeError msg 400), headers := hs,
        calls := cs ++ [Call.newReaderCall file] }
    | .ok r =>
      { headers := hs, body := some r, nextCalled := true,
        calls := cs ++ [Call.newReaderCall file] }

/-- Tail of the handler after the existence check and strong-ETag
pre-read succeeded (lines 223–260).  `fileBuf` is Go's `fileBuf` slice
(`none` = nil). -/
def finishServe {R : Type} (staticFile : StaticFile R) (config : Config)
    (cacheControl : String) (file : String) (fileBuf : Option (List Nat))
    (headers0 : List (String × String)) (calls0 : List Call) : HandlerResult R :=
  let st1 := etagStep staticFile config file fileBuf (headers0, calls0)
  let st2 := lastModifiedStep staticFile config file st1
  let h5 := cacheControlStep cacheControl (customHeaderStep config st2.1)
  bodyStep staticFile file fileBuf h5 st2.2

/-- The middleware produced by `New(staticFile, config)`, applied to one
request.  `contentTypeByExt` abstracts elton's `SetContentTypeByExt`
(MIME type from the file extension, a host-framework concern); a nil
`config.Skipper` is elton's `DefaultSkipper`, which does not skip.
`c.Next()` is modelled as succeeding, recorded in `nextCalled`. -/
def New {R : Type} (contentTypeByExt : String → String) (staticFile : StaticFile R)
    (config : Config) (req : Request) : HandlerResult R :=
  let cacheControl := cacheControlOf config
  let skipper := config.Skipper.getD (fun _ => false)
  if skipper req then { nextCalled := true }
  else
    let file0 := extractFile req
    if config.DenyDot && hasDotSegment file0 then { err := some ErrNotAllowAccessDot }
    else
      let file := goJoin config.Path file0
      if !goStartsWith file config.Path then { err := some ErrOutOfPath }
      else if config.DenyQueryString && req.rawQuery != "" then
        { err := some ErrNotAllowQueryString }
      else if !staticFile.Exists file then
        if config.NotFoundNext then { nextCalled := true, calls := [Call.existsCall file] }
        else { err := some ErrNotFound, calls := [Call.existsCall file] }
      else
        let headers0 := setHeader [] "Content-Type" (contentTypeByExt file)
        if !config.DisableETag && config.EnableStrongETag then
          match staticFile.Get file with
          | .error e =>
            let he := match e with
              | .hes he => he
              | .plain m => { StatusCode := 500, Message := m, Category := ErrCategory }
            { err := some he, headers := headers0,
              calls := [Call.existsCall file, Call.getCall file] }
          | .ok obuf =>
            finishServe staticFile config cacheControl file obuf headers0
              [Call.existsCall file, Call.getCall file]
        else
          finishServe staticFile config cacheControl file none headers0 [Call.existsCall file]

/-! ### The local-filesystem backend `FS` -/
/-- Outcome of `os.Stat`: success, the specific "does not exist" error,
or any other error. -/
inductive StatOutcome where
  | ok (info : FileInfo)
  | errNotExist
  | errOther (msg : String)
deriving DecidableEq, Repr

/-- `FS.Exists` (lines 88–93), over an abstract `os.Stat` behaviour:
false only when `os.IsNotExist(err)` holds, true otherwise (success or
any other error). -/
def FSExists (osStat : String → StatOutcome) (file : String) : Bool :=
  match osStat file with
  | .errNotExist => false
  | _ => true

/-- The path the handler resolves for a request: configured root joined
with the extracted file path (line 185). -/
def resolvedPath (cfg : Config) (req : Request) : String :=
  goJoin cfg.Path (extractFile req)

/-! ### Helper lemmas about `setHeader` and the serve steps -/
/-- `hs` contains no entry whose header name is `key`. -/
def NoKey (key : String) (hs : List (String × String)) : Prop :=
  ∀ p ∈ hs, p.1 ≠ key

/-- Backend used by the C1 witness. -/
def sfC1 : StaticFile Nat :=
  { Exists := fun _ => true, Get := fun _ => .ok none,
    Stat := fun _ => none, NewReader := fun _ => .ok 0 }

/-- Config used by the C1 witness. -/
def cfgC1 : Config := { Path := "/var/www" }

/-- Request used by the C1 witness. -/
def reqC1 : Request := ⟨[], "/../../etc/passwd", ""⟩

/-- Backend of the C2 scenario: the file exists, `Stat` reports size 120
and modification time unix 1700000000. -/
def sfC2 : StaticFile Nat :=
  { Exists := fun _ => true, Get := fun _ => .ok none,
    Stat := fun _ => some { size := 120, modTimeUnix := 1700000000 },
    NewReader := fun _ => .ok 0 }

/-- Config of the C2 scenario: root `/var/www`, strong ETag disabled,
ETag and Last-Modified enabled. -/
def cfgC2 : Config := { Path := "/var/www" }

/-- Request of the C2 scenario: path `/index.html`. -/
def reqC2 : Request := ⟨[], "/index.html", ""⟩

/-- Backend used by the C3 witness. -/
def sfC3 : StaticFile Nat :=
  { Exists := fun _ => true, Get := fun _ => .ok none,
    Stat := fun _ => none, NewReader := fun _ => .ok 0 }

/-- Config used by the C3 witness. -/
def cfgC3 : Config := { Path := "/r", MaxAge := 60 }

/-- Request used by the C3 witness. -/
def reqC3 : Request := ⟨[], "/a.txt", ""⟩

/-- Backend used by the C4 witness. -/
def sfC4 : StaticFile Nat :=
  { Exists := fun _ => true, Get := fun _ => .ok none,
    Stat := fun _ => none, NewReader := fun _ => .ok 0 }

/-- Config used by the C4 witness. -/
def cfgC4 : Config := { Path := "/www", DenyDot := true }

/-- Request used by the C4 witness. -/
def reqC4 : Request := ⟨["/.git/config"], "/x", ""⟩

/-- Backend used by the C5 witness. -/
def sfC5 : StaticFile Nat :=
  { Exists := fun _ => false, Get := fun _ => .ok none,
    Stat := fun _ => none, NewReader := fun _ => .ok 0 }

/-- Config used by the C5 witness. -/
def cfgC5 : Config := { Path := "/w" }

/-- Request used by the C5 witness. -/
def reqC5 : Request := ⟨[], "/missing.txt", ""⟩

/-- Backend used by the C6 witness. -/
def sfC6 : StaticFile Nat :=
  { Exists := fun _ => true, Get := fun _ => .error (.plain "disk failure"),
    Stat := fun _ => none, NewReader := fun _ => .ok 0 }

/-- Config used by the C6 witness. -/
def cfgC6 : Config := { Path := "/w", EnableStrongETag := true }

/-- Request used by the C6 witness. -/
def reqC6 : Request := ⟨[], "/a.bin", ""⟩

/-- Backend used by the C9 witness. -/
def sfC9 : StaticFile Nat :=
  { Exists := fun _ => true, Get := fun _ => .ok none,
    Stat := fun _ => none, NewReader := fun _ => .ok 7 }

/-- Config used by the C9 witness. -/
def cfgC9 : Config := { Path := "/w", EnableStrongETag := true }

/-- Request used by the C9 witness. -/
def reqC9 : Request := ⟨[], "/empty.txt", ""⟩

/-- Backend used by the C10 witness. -/
def sfC10 : StaticFile Nat :=
  { Exists := fun _ => true, Get := fun _ => .ok none,
    Stat := fun _ => none, NewReader := fun _ => .ok 0 }

/-- Request used by the C10 witness. -/
def reqC10 : Request := ⟨[], "/../secret", ""⟩

/-! ### Model validation on concrete inputs -/

example : StaticServe.formatHTTPDate 1700000000 = "Tue, 14 Nov 2023 22:13:20 GMT" := by decide

example : StaticServe.formatHTTPDate 0 = "Thu, 01 Jan 1970 00:00:00 GMT" := by decide

example : StaticServe.formatHTTPDate 951826154 = "Tue, 29 Feb 2000 12:09:14 GMT" := by decide

-- scratch: sha1 of empty input

set_option maxRecDepth 40000 in
example : String.mk (StaticServe.base64URLEncode (StaticServe.sha1 [])) = "2jmj7l5rSw0yVb_vlWAYkK_YBwk=" := by decide

set_option maxRecDepth 80000 in
example : StaticServe.sha1 [97, 98, 99] =
    [0xa9, 0x99, 0x3e, 0x36, 0x47, 0x06, 0x81, 0x6a, 0xba, 0x3e,
     0x25, 0x71, 0x78, 0x50, 0xc2, 0x6c, 0x9c, 0xd0, 0xd8, 0x9d] := by decide

set_option maxRecDepth 160000 in
example : String.mk (StaticServe.base64URLEncode (StaticServe.sha1 (List.replicate 64 97))) =
    "AJi6gktcFkJ716ESKlpEKiXsZE0=" := by decide

-- scratch checks (to be removed)

example : StaticServe.goClean "/var/www/../../etc/passwd" = "/etc/passwd" := by decide

example : StaticServe.goClean "a/../../b" = "../b" := by decide

example : StaticServe.goClean "" = "." := by decide

example : StaticServe.goClean "/" = "/" := by decide

example : StaticServe.goClean "//a//b/./c/.." = "/a/b" := by decide

example : StaticServe.goJoin "/var/www" "/index.html" = "/var/www/index.html" := by decide

example : StaticServe.goJoin "" "/a/../.." = "/" := by decide

example : StaticServe.goJoin "" "a/../.." = ".." := by decide

example : StaticServe.goStartsWith "/var/www/a" "/var/www" = true := by decide

example : StaticServe.goStartsWith "/etc/passwd" "/var/www" = false := by decide

example : StaticServe.natToHex 120 = "78" := by decide

example : StaticServe.natToHex 1700000000 = "6553f100" := by decide

example : StaticServe.goItoa 31536000 = "31536000" := by rfl

/-! ### Helper lemmas -/

lemma mem_setHeader_self (hs : List (String × String)) (k v : String) (h : NoKey k hs) :
    (k, v) ∈ setHeader hs k v := by
  have hany : hs.any (fun p => p.1 == k) = false := by
    simp only [List.any_eq_false]
    intro p hp
    simp [h p hp]
  simp [setHeader, hany]

lemma mem_setHeader_of_ne (hs : List (String × String)) (k v : String) {key w : String}
    (hne : key ≠ k) (hmem : (key, w) ∈ hs) : (key, w) ∈ setHeader hs k v := by
  unfold setHeader
  split
  · refine List.mem_map.mpr ⟨(key, w), hmem, ?_⟩
    simp [hne]
  · exact List.mem_append_left _ hmem

lemma mem_setHeader (hs : List (String × String)) (k v : String) (p : String × String)
    (h : p ∈ setHeader hs k v) : p ∈ hs ∨ p = (k, v) := by
  unfold setHeader at h
  split at h
  · obtain ⟨a, ha, hEq⟩ := List.mem_map.mp h
    by_cases hk : (a.1 == k) = true
    · right; rw [← hEq]; simp [hk]
    · left; rw [← hEq]; simp [hk]; exact ha
  · rcases List.mem_append.mp h with h1 | h2
    · left; exact h1
    · right; simpa using h2

lemma noKey_setHeader (key : String) (hs : List (String × String)) (k v : String)
    (h : NoKey key hs) (hk : k ≠ key) : NoKey key (setHeader hs k v) := by
  intro p hp
  rcases mem_setHeader hs k v p hp with h1 | h2
  · exact h p h1
  · rw [h2]; exact hk

lemma etagStep_snd {R : Type} (sf : StaticFile R) (cfg : Config) (file : String)
    (fb : Option (List Nat)) (st : List (String × String) × List Call) :
    (etagStep sf cfg file fb st).2 =
      st.2 ++ (if !cfg.DisableETag && !cfg.EnableStrongETag then [Call.statCall file] else []) := by
  unfold etagStep
  split
  · split
    · simp_all
    · split <;> simp_all
  · simp_all

lemma lastModifiedStep_snd {R : Type} (sf : StaticFile R) (cfg : Config) (file : String)
    (st : List (String × String) × List Call) :
    (lastModifiedStep sf cfg file st).2 =
      st.2 ++ (if !cfg.DisableLastModified then [Call.statCall file] else []) := by
  unfold lastModifiedStep
  split
  · split <;> simp_all
  · simp_all

lemma bodyStep_headers {R : Type} (sf : StaticFile R) (file : String)
    (fb : Option (List Nat)) (hs : List (String × String)) (cs : List Call) :
    (bodyStep sf file fb hs cs).headers = hs := by
  unfold bodyStep
  rcases fb with _ | buf
  · rcases h : sf.NewReader file with msg | r <;> simp [h]
  · rfl

lemma bodyStep_calls {R : Type} (sf : StaticFile R) (file : String)
    (fb : Option (List Nat)) (hs : List (String × String)) (cs : List Call) :
    (bodyStep sf file fb hs cs).calls =
      cs ++ (match fb with | some _ => [] | none => [Call.newReaderCall file]) := by
  unfold bodyStep
  rcases fb with _ | buf
  · rcases h : sf.NewReader file with msg | r <;> simp [h]
  · simp

lemma etagStep_fst_mem {R : Type} (sf : StaticFile R) (cfg : Config) (file : String)
    (fb : Option (List Nat)) (st : List (String × String) × List Call) {key w : String}
    (hk : key ≠ "ETag") (hmem : (key, w) ∈ st.1) : (key, w) ∈ (etagStep sf cfg file fb st).1 := by
  unfold etagStep
  split
  · split
    · exact mem_setHeader_of_ne _ _ _ hk hmem
    · split
      · exact mem_setHeader_of_ne _ _ _ hk hmem
      · exact hmem
  · exact hmem

lemma etagStep_noKey {R : Type} (sf : StaticFile R) (cfg : Config) (file : String)
    (fb : Option (List Nat)) (st : List (String × String) × List Call) (key : String)
    (hk : key ≠ "ETag") (h : NoKey key st.1) : NoKey key (etagStep sf cfg file fb st).1 := by
  unfold etagStep
  split
  · split
    · exact noKey_setHeader _ _ _ _ h hk.symm
    · split
      · exact noKey_setHeader _ _ _ _ h hk.symm
      · exact h
  · exact h

lemma lastModifiedStep_fst_mem {R : Type} (sf : StaticFile R) (cfg : Config) (file : String)
    (st : List (String × String) × List Call) {key w : String}
    (hk : key ≠ "Last-Modified") (hmem : (key, w) ∈ st.1) :
    (key, w) ∈ (lastModifiedStep sf cfg file st).1 := by
  unfold lastModifiedStep
  split
  · split
    · exact mem_setHeader_of_ne _ _ _ hk hmem
    · exact hmem
  · exact hmem

lemma lastModifiedStep_noKey {R : Type} (sf : StaticFile R) (cfg : Config) (file : String)
    (st : List (String × String) × List Call) (key : String)
    (hk : key ≠ "Last-Modified") (h : NoKey key st.1) :
    NoKey key (lastModifiedStep sf cfg file st).1 := by
  unfold lastModifiedStep
  split
  · split
    · exact noKey_setHeader _ _ _ _ h hk.symm
    · exact h
  · exact h

lemma customHeaderStep_nil (cfg : Config) (hs : List (String × String))
    (h : cfg.Header = []) : customHeaderStep cfg hs = hs := by
  unfold customHeaderStep
  rw [h]
  rfl

lemma mem_cacheControlStep_self (cc : String) (hs : List (String × String))
    (hcc : cc ≠ "") (h : NoKey "Cache-Control" hs) :
    ("Cache-Control", cc) ∈ cacheControlStep cc hs := by
  unfold cacheControlStep
  rw [if_pos hcc]
  exact mem_setHeader_self _ _ _ h

lemma mem_cacheControlStep_of_ne (cc : String) (hs : List (String × String)) {key w : String}
    (hk : key ≠ "Cache-Control") (hm : (key, w) ∈ hs) : (key, w) ∈ cacheControlStep cc hs := by
  unfold cacheControlStep
  split
  · exact mem_setHeader_of_ne _ _ _ hk hm
  · exact hm

lemma cacheControlStep_noKey (cc : String) (hs : List (String × String)) (key : String)
    (hcc : cc = "") (h : NoKey key hs) : NoKey key (cacheControlStep cc hs) := by
  unfold cacheControlStep
  simp [hcc]
  exact h

lemma noKey_contentType (key : String) (ctv : String) (h : key ≠ "Content-Type") :
    NoKey key (setHeader [] "Content-Type" ctv) := by
  intro p hp
  simp only [setHeader, List.any_nil, List.nil_append, Bool.false_eq_true, if_false,
    List.mem_singleton] at hp
  rw [hp]
  exact Ne.symm h

lemma goStartsWith_empty (s : String) : goStartsWith s "" = true := by
  unfold goStartsWith
  cases h : s.data <;> rfl

lemma etagStep_strong_mem {R : Type} (sf : StaticFile R) (cfg : Config) (file : String)
    (fb : Option (List Nat)) (st : List (String × String) × List Call)
    (hde : cfg.DisableETag = false) (hse : cfg.EnableStrongETag = true)
    (h : NoKey "ETag" st.1) :
    ("ETag", generateETag (fb.getD [])) ∈ (etagStep sf cfg file fb st).1 := by
  unfold etagStep
  simp only [hde, hse, Bool.not_false, if_true]
  exact mem_setHeader_self _ _ _ h

lemma New_serves {R : Type} (ct : String → String) (sf : StaticFile R) (cfg : Config)
    (req : Request) (obuf : Option (List Nat))
    (h1 : cfg.Skipper = none) (h2 : cfg.DenyDot = false)
    (h3 : goStartsWith (resolvedPath cfg req) cfg.Path = true)
    (h4 : cfg.DenyQueryString = false)
    (h5 : sf.Exists (resolvedPath cfg req) = true)
    (h6 : sf.Get (resolvedPath cfg req) = .ok obuf) :
    New ct sf cfg req =
      (if !cfg.DisableETag && cfg.EnableStrongETag then
        finishServe sf cfg (cacheControlOf cfg) (resolvedPath cfg req) obuf
          (setHeader [] "Content-Type" (ct (resolvedPath cfg req)))
          [Call.existsCall (resolvedPath cfg req), Call.getCall (resolvedPath cfg req)]
      else
        finishServe sf cfg (cacheControlOf cfg) (resolvedPath cfg req) none
          (setHeader [] "Content-Type" (ct (resolvedPath cfg req)))
          [Call.existsCall (resolvedPath cfg req)]) := by
  unfold New resolvedPath at *
  simp only [h1, h2, h3, h4, h5, Option.getD_none, Bool.false_and, Bool.not_true,
    Bool.false_eq_true, if_false]
  split
  · rw [h6]
  · rfl

/-! ### The claims -/

/-- C1: when no skipper is configured and the dot check is off, a request
whose path contains a `..` segment and whose clean-join with the root
does not start with the root string is rejected with `ErrOutOfPath`, with
no backend operation (in particular neither `Get` nor `NewReader`) ever
called and the continuation never invoked. -/
theorem traversal_guard_rejects_out_of_root :
    ∀ (R : Type) (ct : String → String) (sf : StaticFile R) (cfg : Config) (req : Request),
      cfg.Skipper = none → cfg.DenyDot = false →
      (splitOnSlash (extractFile req).data).contains ['.', '.'] = true →
      goStartsWith (resolvedPath cfg req) cfg.Path = false →
      (New ct sf cfg req).err = some ErrOutOfPath ∧
      (New ct sf cfg req).calls = [] ∧
      (New ct sf cfg req).nextCalled = false := by
  intro R ct sf cfg req h1 h2 hdd h3
  unfold New resolvedPath at *
  simp [h1, h2, h3]

theorem traversal_guard_rejects_out_of_root_witness :
    (New (fun _ => "t") sfC1 cfgC1 reqC1).err = some ErrOutOfPath ∧
    (New (fun _ => "t") sfC1 cfgC1 reqC1).calls = [] ∧
    (New (fun _ => "t") sfC1 cfgC1 reqC1).nextCalled = false :=
  traversal_guard_rejects_out_of_root Nat (fun _ => "t") sfC1 cfgC1 reqC1 rfl rfl
    (by decide) (by decide)

/-- C2 counterexample: in the claimed scenario the handler run succeeds
(no error, continuation invoked) but the response does not carry the
claimed ETag value `W/"78-652299680"` — the hex of unix time 1700000000
is `6553f100`, not `652299680`. -/
theorem weak_etag_scenario_claim_false :
    ("ETag", "W/\"78-652299680\"") ∉ (New (fun _ => "text/html") sfC2 cfgC2 reqC2).headers ∧
    (New (fun _ => "text/html") sfC2 cfgC2 reqC2).err = none ∧
    (New (fun _ => "text/html") sfC2 cfgC2 reqC2).nextCalled = true := by
  decide

/-- C2 amended: in the scenario (root `/var/www`, path `/index.html`,
file exists, strong ETag disabled, stat size 120 and mod time unix
1700000000) the response carries the weak ETag `W/"78-6553f100"` and a
Last-Modified header equal to the RFC 1123 GMT formatting of the
modification time, `Tue, 14 Nov 2023 22:13:20 GMT`. -/
theorem weak_etag_scenario :
    ("ETag", "W/\"78-6553f100\"") ∈ (New (fun _ => "text/html") sfC2 cfgC2 reqC2).headers ∧
    ("Last-Modified", formatHTTPDate 1700000000) ∈
      (New (fun _ => "text/html") sfC2 cfgC2 reqC2).headers ∧
    formatHTTPDate 1700000000 = "Tue, 14 Nov 2023 22:13:20 GMT" ∧
    weakETag { size := 120, modTimeUnix := 1700000000 } = "W/\"78-6553f100\"" := by
  decide

/-- C3: the cache-control value is precomputed as `public`, then
`max-age=<seconds>` when positive, then `s-maxage=<seconds>` when
positive, joined by `", "`; with `max-age=31536000` and `s-maxage=3600`
it is exactly `public, max-age=31536000, s-maxage=3600`; with neither
positive it is the empty string, and on a served response (backend says
the file exists, a strong-mode pre-read succeeds, no custom headers) the
`Cache-Control` header is set exactly when the precomputed value is
nonempty. -/
theorem cache_control_header_spec :
    cacheControlOf { MaxAge := 31536000, SMaxAge := 3600 } =
      "public, max-age=31536000, s-maxage=3600" ∧
    (∀ cfg : Config, cfg.MaxAge ≤ 0 → cfg.SMaxAge ≤ 0 → cacheControlOf cfg = "") ∧
    (∀ (R : Type) (ct : String → String) (sf : StaticFile R) (cfg : Config) (req : Request)
        (obuf : Option (List Nat)),
      cfg.Skipper = none → cfg.DenyDot = false →
      goStartsWith (resolvedPath cfg req) cfg.Path = true →
      cfg.DenyQueryString = false →
      sf.Exists (resolvedPath cfg req) = true →
      sf.Get (resolvedPath cfg req) = .ok obuf →
      cfg.Header = [] →
      ((cacheControlOf cfg ≠ "" →
        ("Cache-Control", cacheControlOf cfg) ∈ (New ct sf cfg req).headers) ∧
       (cacheControlOf cfg = "" →
        ∀ v, ("Cache-Control", v) ∉ (New ct sf cfg req).headers))) := by
  refine ⟨by decide, ?_, ?_⟩
  · intro cfg hma hsa
    have hm : ¬(cfg.MaxAge > 0) := by omega
    have hs : ¬(cfg.SMaxAge > 0) := by omega
    simp [cacheControlOf, hm, hs]
  · intro R ct sf cfg req obuf h1 h2 h3 h4 h5 h6 h7
    rw [New_serves ct sf cfg req obuf h1 h2 h3 h4 h5 h6]
    constructor
    · intro hcc
      split <;>
      · unfold finishServe
        rw [bodyStep_headers]
        refine mem_cacheControlStep_self _ _ hcc ?_
        rw [customHeaderStep_nil _ _ h7]
        refine lastModifiedStep_noKey _ _ _ _ "Cache-Control" (by decide) ?_
        refine etagStep_noKey _ _ _ _ _ "Cache-Control" (by decide) ?_
        exact noKey_contentType "Cache-Control" _ (by decide)
    · intro hcc v
      split <;>
      · unfold finishServe
        rw [bodyStep_headers]
        intro hmem
        refine absurd rfl (cacheControlStep_noKey _ _ "Cache-Control" hcc ?_ _ hmem)
        rw [customHeaderStep_nil _ _ h7]
        refine lastModifiedStep_noKey _ _ _ _ "Cache-Control" (by decide) ?_
        refine etagStep_noKey _ _ _ _ _ "Cache-Control" (by decide) ?_
        exact noKey_contentType "Cache-Control" _ (by decide)

theorem cache_control_header_spec_witness :
    cacheControlOf cfgC3 ≠ "" ∧
    ("Cache-Control", cacheControlOf cfgC3) ∈ ((New (fun _ => "t") sfC3 cfgC3 reqC3).headers) :=
  ⟨by decide,
   (cache_control_header_spec.2.2 Nat (fun _ => "t") sfC3 cfgC3 reqC3 none rfl rfl (by decide)
     rfl rfl rfl rfl).1 (by decide)⟩

/-- C4: with deny-dot enabled (and no skipper), a request path with a
nonempty `/`-separated segment beginning with `.` is rejected with
`ErrNotAllowAccessDot` before any backend call — in particular `Exists`
is never invoked. -/
theorem deny_dot_rejects_before_exists :
    ∀ (R : Type) (ct : String → String) (sf : StaticFile R) (cfg : Config) (req : Request),
      cfg.Skipper = none → cfg.DenyDot = true →
      hasDotSegment (extractFile req) = true →
      (New ct sf cfg req).err = some ErrNotAllowAccessDot ∧
      (New ct sf cfg req).calls = [] ∧
      (New ct sf cfg req).nextCalled = false := by
  intro R ct sf cfg req h1 h2 h3
  unfold New at *
  simp [h1, h2, h3]

theorem deny_dot_rejects_before_exists_witness :
    (New (fun _ => "t") sfC4 cfgC4 reqC4).err = some ErrNotAllowAccessDot ∧
    (New (fun _ => "t") sfC4 cfgC4 reqC4).calls = [] ∧
    (New (fun _ => "t") sfC4 cfgC4 reqC4).nextCalled = false :=
  deny_dot_rejects_before_exists Nat (fun _ => "t") sfC4 cfgC4 reqC4 rfl rfl (by decide)

/-- C5: when the backend's `Exists` is false for the resolved path (the
request having passed the skip, dot, traversal and query checks): with
fall-through disabled the handler returns `ErrNotFound` and never invokes
the continuation; with fall-through enabled it invokes the continuation,
returns no error, and has set no headers. -/
theorem not_found_behavior :
    ∀ (R : Type) (ct : String → String) (sf : StaticFile R) (cfg : Config) (req : Request),
      cfg.Skipper = none → cfg.DenyDot = false →
      goStartsWith (resolvedPath cfg req) cfg.Path = true →
      cfg.DenyQueryString = false →
      sf.Exists (resolvedPath cfg req) = false →
      ((cfg.NotFoundNext = false →
        (New ct sf cfg req).err = some ErrNotFound ∧ (New ct sf cfg req).nextCalled = false) ∧
       (cfg.NotFoundNext = true →
        (New ct sf cfg req).err = none ∧ (New ct sf cfg req).nextCalled = true ∧
        (New ct sf cfg req).headers = [])) := by
  intro R ct sf cfg req h1 h2 h3 h4 h5
  constructor
  · intro hnf
    unfold New resolvedPath at *
    simp [h1, h2, h3, h4, h5, hnf]
  · intro hnf
    unfold New resolvedPath at *
    simp [h1, h2, h3, h4, h5, hnf]

theorem not_found_behavior_witness :
    (New (fun _ => "t") sfC5 cfgC5 reqC5).err = some ErrNotFound ∧
    (New (fun _ => "t") sfC5 cfgC5 reqC5).nextCalled = false :=
  (not_found_behavior Nat (fun _ => "t") sfC5 cfgC5 reqC5 rfl rfl (by decide) rfl rfl).1 rfl

/-- C6: in strong-ETag mode, when the backend's `Get` fails the handler
returns the backend's structured error unchanged if it was one, and
otherwise a 500 error carrying the plain error's message and the
middleware's category; the continuation is never invoked. -/
theorem strong_etag_read_failure :
    ∀ (R : Type) (ct : String → String) (sf : StaticFile R) (cfg : Config) (req : Request)
      (ge : GoErr),
      cfg.Skipper = none → cfg.DenyDot = false →
      goStartsWith (resolvedPath cfg req) cfg.Path = true →
      cfg.DenyQueryString = false →
      sf.Exists (resolvedPath cfg req) = true →
      cfg.DisableETag = false → cfg.EnableStrongETag = true →
      sf.Get (resolvedPath cfg req) = .error ge →
      ((New ct sf cfg req).nextCalled = false ∧
       (∀ e, ge = GoErr.hes e → (New ct sf cfg req).err = some e) ∧
       (∀ m, ge = GoErr.plain m →
        (New ct sf cfg req).err =
          some { StatusCode := 500, Message := m, Category := ErrCategory })) := by
  intro R ct sf cfg req ge h1 h2 h3 h4 h5 hde hse hget
  unfold New resolvedPath at *
  simp [h1, h2, h3, h4, h5, hde, hse, hget]
  constructor
  · intro e he
    rw [he]
  · intro m hm
    rw [hm]

theorem strong_etag_read_failure_witness :
    (New (fun _ => "t") sfC6 cfgC6 reqC6).nextCalled = false ∧
    (New (fun _ => "t") sfC6 cfgC6 reqC6).err =
      some { StatusCode := 500, Message := "disk failure", Category := ErrCategory } :=
  ⟨(strong_etag_read_failure Nat (fun _ => "t") sfC6 cfgC6 reqC6 (.plain "disk failure")
      rfl rfl (by decide) rfl rfl rfl rfl rfl).1,
   (strong_etag_read_failure Nat (fun _ => "t") sfC6 cfgC6 reqC6 (.plain "disk failure")
      rfl rfl (by decide) rfl rfl rfl rfl rfl).2.2 "disk failure" rfl⟩

set_option maxRecDepth 40000 in
/-- C7: `generateETag` is a fixed function of the byte content (computing
it twice gives the same string); empty content yields exactly
`"0-2jmj7l5rSw0yVb_vlWAYkK_YBwk="` in quotes, and that constant is indeed
the URL-safe base64 SHA-1 of empty input; nonempty content of size `n`
yields `"<hex n>-<URL-safe-base64 SHA-1 of content>"`. -/
theorem generate_etag_deterministic :
    (∀ b : List Nat, generateETag b = generateETag b) ∧
    generateETag [] = "\"0-2jmj7l5rSw0yVb_vlWAYkK_YBwk=\"" ∧
    String.mk (base64URLEncode (sha1 [])) = "2jmj7l5rSw0yVb_vlWAYkK_YBwk=" ∧
    (∀ b : List Nat, b ≠ [] →
      generateETag b =
        "\"" ++ natToHex b.length ++ "-" ++ String.mk (base64URLEncode (sha1 b)) ++ "\"") := by
  refine ⟨fun b => rfl, rfl, by decide, fun b hb => ?_⟩
  have hlen : ¬(b.length = 0) := by simpa using hb
  simp [generateETag, hlen]

theorem generate_etag_deterministic_witness :
    ([104] : List Nat) ≠ [] ∧
    generateETag [104] =
      "\"" ++ natToHex ([104] : List Nat).length ++ "-" ++
        String.mk (base64URLEncode (sha1 [104])) ++ "\"" :=
  ⟨by decide, generate_etag_deterministic.2.2.2 [104] (by decide)⟩

/-- C8: the local-filesystem `FS.Exists` returns false exactly when the
underlying `os.Stat` failed with a does-not-exist error; success and any
other error (permission denied, ...) both yield true. -/
theorem fs_exists_iff_not_notexist :
    ∀ (osStat : String → StatOutcome) (file : String),
      FSExists osStat file = false ↔ osStat file = StatOutcome.errNotExist := by
  intro osStat file
  unfold FSExists
  cases h : osStat file <;> simp

/-- C9: in strong-ETag mode, when `Get` succeeds with a nil byte slice
the ETag header is still set (computed over empty content) but the body
is assigned by opening a stream via `NewReader`, not from the read
result: `BodyBuffer` stays unset and the stream is the response body. -/
theorem nil_buffer_streams_body :
    ∀ (R : Type) (ct : String → String) (sf : StaticFile R) (cfg : Config) (req : Request)
      (r : R),
      cfg.Skipper = none → cfg.DenyDot = false →
      goStartsWith (resolvedPath cfg req) cfg.Path = true →
      cfg.DenyQueryString = false →
      sf.Exists (resolvedPath cfg req) = true →
      cfg.DisableETag = false → cfg.EnableStrongETag = true →
      sf.Get (resolvedPath cfg req) = .ok none →
      sf.NewReader (resolvedPath cfg req) = .ok r →
      cfg.Header = [] →
      ((New ct sf cfg req).bodyBuffer = none ∧
       (New ct sf cfg req).body = some r ∧
       Call.newReaderCall (resolvedPath cfg req) ∈ (New ct sf cfg req).calls ∧
       ("ETag", generateETag []) ∈ (New ct sf cfg req).headers) := by
  intro R ct sf cfg req r h1 h2 h3 h4 h5 hde hse hget hnr hH
  rw [New_serves ct sf cfg req none h1 h2 h3 h4 h5 hget]
  rw [if_pos (by simp [hde, hse])]
  unfold finishServe
  refine ⟨?_, ?_, ?_, ?_⟩
  · simp [bodyStep, hnr]
  · simp [bodyStep, hnr]
  · rw [bodyStep_calls]
    simp
  · rw [bodyStep_headers]
    refine mem_cacheControlStep_of_ne _ _ (by decide) ?_
    rw [customHeaderStep_nil _ _ hH]
    refine lastModifiedStep_fst_mem _ _ _ _ (by decide) ?_
    have hmem := etagStep_strong_mem sf cfg (resolvedPath cfg req) none
      (setHeader [] "Content-Type" (ct (resolvedPath cfg req)),
        [Call.existsCall (resolvedPath cfg req), Call.getCall (resolvedPath cfg req)])
      hde hse (noKey_contentType "ETag" _ (by decide))
    simpa using hmem

theorem nil_buffer_streams_body_witness :
    (New (fun _ => "t") sfC9 cfgC9 reqC9).bodyBuffer = none ∧
    (New (fun _ => "t") sfC9 cfgC9 reqC9).body = some 7 ∧
    Call.newReaderCall (resolvedPath cfgC9 reqC9) ∈ (New (fun _ => "t") sfC9 cfgC9 reqC9).calls ∧
    ("ETag", generateETag []) ∈ (New (fun _ => "t") sfC9 cfgC9 reqC9).headers :=
  nil_buffer_streams_body Nat (fun _ => "t") sfC9 cfgC9 reqC9 7 rfl rfl (by decide) rfl rfl
    rfl rfl rfl rfl rfl

/-- C10: with an empty configured root every joined path passes the
string-prefix traversal guard (`strings.HasPrefix(s, "")` is always
true), so the guard can never fire: no run with empty root produces
`ErrOutOfPath` with an empty backend-call trace (the guard rejects
before any backend call, so a guard rejection would have an empty
trace; an `ErrOutOfPath`-valued error fabricated by the backend itself
is the only way the error value can appear, and it always follows an
`Exists` call). -/
theorem empty_root_guard_unreachable :
    (∀ s : String, goStartsWith s "" = true) ∧
    (∀ (R : Type) (ct : String → String) (sf : StaticFile R) (cfg : Config) (req : Request),
      cfg.Path = "" →
      ¬((New ct sf cfg req).err = some ErrOutOfPath ∧ (New ct sf cfg req).calls = [])) := by
  constructor
  · exact goStartsWith_empty
  · intro R ct sf cfg req hpath hcontra
    obtain ⟨he, hc⟩ := hcontra
    simp only [New] at he hc
    rw [hpath] at he hc
    by_cases hsk : (cfg.Skipper.getD (fun _ => false)) req = true
    · rw [if_pos hsk] at he
      simp at he
    · rw [if_neg hsk] at he hc
      by_cases hdot : (cfg.DenyDot && hasDotSegment (extractFile req)) = true
      · rw [if_pos hdot] at he
        simp [ErrNotAllowAccessDot, ErrOutOfPath, getStaticServeError] at he
      · rw [if_neg hdot] at he hc
        rw [goStartsWith_empty] at he hc
        simp only [Bool.not_true, Bool.false_eq_true, if_false] at he hc
        by_cases hq : (cfg.DenyQueryString && req.rawQuery != "") = true
        · rw [if_pos hq] at he
          simp [ErrNotAllowQueryString, ErrOutOfPath, getStaticServeError] at he
        · rw [if_neg hq] at he hc
          by_cases hex : (!sf.Exists (goJoin "" (extractFile req))) = true
          · rw [if_pos hex] at he hc
            by_cases hnf : cfg.NotFoundNext = true
            · rw [if_pos hnf] at he
              simp at he
            · rw [if_neg hnf] at he
              simp [ErrNotFound, ErrOutOfPath, getStaticServeError] at he
          · rw [if_neg hex] at he hc
            by_cases hstrong : (!cfg.DisableETag && cfg.EnableStrongETag) = true
            · rw [if_pos hstrong] at he hc
              rcases hget : sf.Get (goJoin "" (extractFile req)) with e | obuf
              · rw [hget] at hc
                simp at hc
              · rw [hget] at hc
                unfold finishServe at hc
                rw [bodyStep_calls, lastModifiedStep_snd, etagStep_snd] at hc
                simp at hc
            · rw [if_neg hstrong] at hc
              unfold finishServe at hc
              rw [bodyStep_calls, lastModifiedStep_snd, etagStep_snd] at hc
              simp at hc

theorem empty_root_guard_unreachable_witness :
    ¬((New (fun _ => "t") sfC10 { Path := "" } reqC10).err = some ErrOutOfPath ∧
      (New (fun _ => "t") sfC10 { Path := "" } reqC10).calls = []) :=
  empty_root_guard_unreachable.2 Nat (fun _ => "t") sfC10 { Path := "" } reqC10 rfl

end StaticServe
